import Mathlib

/-!
Verification of the grid/date layout engine and interaction model of the
tui.calendar repository. Pure layout helpers (grid position finder, time-grid
row builder, column layout calculator, month date matrix) and the drag
interaction state machine are embedded as executable Lean definitions; the
public CRUD guard of `CalendarControl` is embedded from its source.
Coordinates and percentages are modelled as exact rationals.
-/

/-- A bounding box as returned by `getBoundingClientRect()`. -/
structure Rect where
  x : ℚ
  y : ℚ
  width : ℚ
  height : ℚ
deriving DecidableEq, Repr

/-- A grid cell address resulting from pointer-position inversion. -/
structure GridPosition where
  columnIndex : ℤ
  rowIndex : ℤ
deriving DecidableEq, Repr

/-- Clamp an integer `v` into the interval `[lo, hi]`. -/
def clampI (lo hi v : ℤ) : ℤ :=
  max lo (min v hi)

/-- Modelled from the spec: `createGridPositionFinder` of `@src/helpers/grid`
(the helper module itself is absent from the corpus; only its unit tests are
present). A null container makes the finder constantly null; a point strictly
outside the box `[x, x+width] × [y, y+height]` yields null; otherwise the
column/row index is the clamped floor of the offset divided by the cell size. -/
def createGridPositionFinder (columnsCount rowsCount : ℕ) (container : Option Rect)
    (clientX clientY : ℚ) : Option GridPosition :=
  match container with
  | none => none
  | some r =>
    let left := clientX - r.x
    let top := clientY - r.y
    if left < 0 ∨ top < 0 ∨ left > r.width ∨ top > r.height then
      none
    else
      some
        { columnIndex := clampI 0 ((columnsCount : ℤ) - 1) ⌊left / (r.width / (columnsCount : ℚ))⌋
          rowIndex := clampI 0 ((rowsCount : ℤ) - 1) ⌊top / (r.height / (rowsCount : ℚ))⌋ }

/-- One row descriptor of the time grid: vertical extent in percent and the
half-hour boundary labels. -/
structure TimeGridRow where
  top : ℚ
  height : ℚ
  startTime : String
  endTime : String
deriving DecidableEq, Repr

/-- Left-pad a string with the character `'0'` up to length 5, as
the padStart(5, zero) string method does. -/
def padStart5 (s : String) : String :=
  String.mk (List.replicate (5 - s.length) '0' ++ s.data)

/-- Modelled from the spec: the row list of `createTimeGridData` of
`@src/helpers/grid` (module absent from the corpus; only its unit tests are
present). Produces `2 × (hourEnd − hourStart)` thirty-minute rows; each row has
`height = 100 / stepCount`, `top = height × index`, and zero-padded `H:MM`
labels alternating `:00 → :30` and `:30 →` next hour `:00`. -/
def createTimeGridRows (hourStart hourEnd : ℕ) : List TimeGridRow :=
  let steps := 2 * (hourEnd - hourStart)
  let rowHeight : ℚ := 100 / (steps : ℚ)
  (List.range steps).map (fun i =>
    let hour := hourStart + i / 2
    { top := rowHeight * (i : ℚ)
      height := rowHeight
      startTime := padStart5 (toString hour ++ ":" ++ (if i % 2 = 1 then "30" else "00"))
      endTime :=
        padStart5 (if i % 2 = 1 then toString (hour + 1) ++ ":00" else toString hour ++ ":30") })

/-- Whether a day-of-week number (0 = Sunday … 6 = Saturday) is a weekend day. -/
def isWeekendDay (day : ℕ) : Bool :=
  day = 0 ∨ day = 6

/-- Modelled from the spec: `getGridWidthAndLeftPercentValues` of
`@src/helpers/grid` (module absent from the corpus; only its unit tests are
present). Dates are represented by their day-of-week numbers. Without
`narrowWeekend` every column gets `totalWidth / length`; with it, the weekday
unit width is `totalWidth / (weekdayCount + weekendCount / 2)` and each weekend
column gets half that unit. Lefts are the running sums of the prior widths. -/
def gridWidthList (row : List ℕ) (narrowWeekend : Bool) (totalWidth : ℚ) : List ℚ :=
  if narrowWeekend then
    let weekendCount := (row.filter (fun d => isWeekendDay d)).length
    let weekdayCount := (row.filter (fun d => !isWeekendDay d)).length
    let unit := totalWidth / ((weekdayCount : ℚ) + (weekendCount : ℚ) / 2)
    row.map (fun d => if isWeekendDay d then unit / 2 else unit)
  else
    row.map (fun _ => totalWidth / (row.length : ℚ))

/-- Running sums of prior widths: the left percent value of each column. -/
def leftsOf : List ℚ → List ℚ
  | [] => []
  | w :: ws => 0 :: (leftsOf ws).map (fun l => l + w)

/-- Modelled from the spec: the pair returned by
`getGridWidthAndLeftPercentValues` — the width list and the left list. -/
def gridWidthAndLeftPercentValues (row : List ℕ) (narrowWeekend : Bool) (totalWidth : ℚ) :
    List ℚ × List ℚ :=
  (gridWidthList row narrowWeekend totalWidth, leftsOf (gridWidthList row narrowWeekend totalWidth))

/-- Days from the civil epoch 1970-01-01 for a Gregorian date (the Hinnant civil
calendar algorithm, with Euclidean division). -/
def daysFromCivil (y m d : ℤ) : ℤ :=
  let yShifted := if m ≤ 2 then y - 1 else y
  let era := yShifted / 400
  let yoe := yShifted - era * 400
  let mp := (m + 9) % 12
  let doy := (153 * mp + 2) / 5 + d - 1
  let doe := yoe * 365 + yoe / 4 - yoe / 100 + doy
  era * 146097 + doe - 719468

/-- Day of week of an epoch day number: 0 = Sunday … 6 = Saturday. -/
def dayOfWeek (n : ℤ) : ℤ :=
  (n + 4) % 7

/-- Whether a Gregorian year is a leap year. -/
def isLeapYear (y : ℤ) : Bool :=
  (y % 4 = 0 ∧ y % 100 ≠ 0) ∨ y % 400 = 0

/-- Number of days of month `m` of year `y`. -/
def daysInMonth (y m : ℤ) : ℤ :=
  if m = 2 then (if isLeapYear y then 29 else 28)
  else if m = 4 ∨ m = 6 ∨ m = 9 ∨ m = 11 then 30
  else 31

/-- Options of the month date matrix builder, with the defaults the grid unit
tests exhibit (`isAlways6Week` defaults to true: an empty-option December 2021
matrix has 6 rows). -/
structure MonthOptions where
  startDayOfWeek : ℤ
  workweek : Bool
  visibleWeeksCount : ℕ
  isAlways6Week : Bool
deriving DecidableEq, Repr

/-- The defaults applied when an option is absent. -/
def defaultMonthOptions : MonthOptions :=
  { startDayOfWeek := 0, workweek := false, visibleWeeksCount := 0, isAlways6Week := true }

/-- Modelled from the spec: `createDateMatrixOfMonth` of `@src/helpers/grid`
(module absent from the corpus; only its unit tests are present). The base date
is the target itself when `visibleWeeksCount > 0`, else the first day of the
month of the target; the matrix starts at the nearest `startDayOfWeek` on or before
the base date; the row count is `visibleWeeksCount` when positive, else 6 when
`isAlways6Week`, else just enough weeks to cover the month; `workweek` drops
the weekend columns. Dates are epoch day numbers. -/
def createDateMatrixOfMonth (y m d : ℤ) (opts : MonthOptions) : List (List ℤ) :=
  let base := if 0 < opts.visibleWeeksCount then daysFromCivil y m d else daysFromCivil y m 1
  let diff := (dayOfWeek base - opts.startDayOfWeek + 7) % 7
  let first := base - diff
  let totalWeeks : ℕ :=
    if 0 < opts.visibleWeeksCount then opts.visibleWeeksCount
    else if opts.isAlways6Week then 6
    else ((daysInMonth y m + diff + 6) / 7).toNat
  (List.range totalWeeks).map (fun w =>
    (List.range 7).filterMap (fun j =>
      let day := first + 7 * (w : ℤ) + (j : ℤ)
      if opts.workweek ∧ isWeekendDay (dayOfWeek day).toNat then none else some day))

/-- An event model as stored in the calendar store: the CRUD guard of
`CalendarControl` matches on `id` and `calendarId`. -/
structure EventModelT where
  id : String
  calendarId : String
  title : String
deriving DecidableEq, Repr

/-- `CalendarControl.getEventModel`: find the first stored event matching both
the event id and the calendar id. -/
def getEventModel (events : List EventModelT) (eventId calendarId : String) :
    Option EventModelT :=
  events.find? (fun e => e.id = eventId ∧ e.calendarId = calendarId)

/-- `CalendarControl.getEvent`: the event object of the found model, or null. -/
def getEvent (events : List EventModelT) (eventId calendarId : String) : Option EventModelT :=
  getEventModel events eventId calendarId

/-- Modelled from the spec: the store dispatcher `updateEvent` (the calendar
store slice is absent from the corpus; §6 of the spec lists it as an external
collaborator updating events by id + calendar id). Applies the changed title to
the matching stored event. -/
def dispatchUpdateEvent (events : List EventModelT) (event : EventModelT) (newTitle : String) :
    List EventModelT :=
  events.map (fun e => if e = event then { e with title := newTitle } else e)

/-- Modelled from the spec: the store dispatcher `deleteEvent` (the calendar
store slice is absent from the corpus; §6 of the spec lists it as an external
collaborator deleting events by id + calendar id). Removes the stored event. -/
def dispatchDeleteEvent (events : List EventModelT) (event : EventModelT) : List EventModelT :=
  events.filter (fun e => ¬ e = event)

/-- `CalendarControl.updateEvent`: dispatch an update only when a model
matching both ids exists. -/
def updateEvent (events : List EventModelT) (eventId calendarId newTitle : String) :
    List EventModelT :=
  match getEventModel events eventId calendarId with
  | none => events
  | some ev => dispatchUpdateEvent events ev newTitle

/-- `CalendarControl.deleteEvent`: dispatch a delete only when a model
matching both ids exists. -/
def deleteEvent (events : List EventModelT) (eventId calendarId : String) : List EventModelT :=
  match getEventModel events eventId calendarId with
  | none => events
  | some ev => dispatchDeleteEvent events ev

/-- A pointer coordinate. -/
structure Point where
  x : ℚ
  y : ℚ
deriving DecidableEq, Repr

/-- The per-drag bookkeeping of the drag interaction state machine: the
pre-drag bounding box of the dragged element, the pointer-down point, and whether
movement has exceeded the pixel threshold since pointer-down. -/
structure DragSession where
  originBox : Rect
  originPoint : Point
  exceeded : Bool
deriving DecidableEq, Repr

/-- The observable state the drag interaction state machine acts on: the
bounding box of the dragged element, the event collection, and the in-progress
drag session (none = Idle). -/
structure InteractionState where
  elementBox : Rect
  events : List EventModelT
  session : Option DragSession
deriving DecidableEq, Repr

/-- Pointer/keyboard inputs of the drag interaction state machine. -/
inductive PointerInput where
  | down (p : Point)
  | move (p : Point)
  | up
  | cancelKey
deriving DecidableEq, Repr

/-- Taxicab distance a move point lies from the pointer-down point. -/
def moveDistance (p q : Point) : ℚ :=
  |p.x - q.x| + |p.y - q.y|

/-- Modelled from the spec: the drag interaction state machine (§4.6; the
implementation is absent from the corpus, only its end-to-end tests are
present). `down` enters Dragging capturing the pre-drag box; `move` follows
the pointer and latches the exceeded-threshold flag once movement from the
pointer-down point exceeds `δ`; `up` commits by applying `commitFn` to the
event collection; `cancelKey` discards all pending changes, restoring the
pre-drag box and leaving the event collection untouched. A pointer-down during
an active drag is ignored. -/
def dragStep (δ : ℚ) (commitFn : List EventModelT → Rect → Rect → List EventModelT)
    (s : InteractionState) (i : PointerInput) : InteractionState :=
  match i, s.session with
  | .down p, none => { s with session := some ⟨s.elementBox, p, false⟩ }
  | .down _, some _ => s
  | .move p, some sess =>
      { elementBox :=
          { sess.originBox with
            x := sess.originBox.x + (p.x - sess.originPoint.x)
            y := sess.originBox.y + (p.y - sess.originPoint.y) }
        events := s.events
        session := some { sess with exceeded := sess.exceeded || moveDistance p sess.originPoint > δ } }
  | .move _, none => s
  | .up, some sess =>
      { elementBox := s.elementBox
        events := commitFn s.events sess.originBox s.elementBox
        session := none }
  | .up, none => s
  | .cancelKey, some sess =>
      { elementBox := sess.originBox, events := s.events, session := none }
  | .cancelKey, none => s

/-- Run the drag machine over a sequence of inputs. -/
def dragRun (δ : ℚ) (commitFn : List EventModelT → Rect → Rect → List EventModelT)
    (s : InteractionState) (inputs : List PointerInput) : InteractionState :=
  inputs.foldl (dragStep δ commitFn) s

/-- The CSS drag state marker: present exactly while a drag session is active
and its movement has exceeded the pixel threshold. -/
def cssMarkerPresent (s : InteractionState) : Bool :=
  match s.session with
  | some sess => sess.exceeded
  | none => false

/-- A rendered event UI model reduced to the attribute the day-grid overflow
predicate reads: its vertical slot index. -/
structure EventUIModelT where
  top : ℤ
deriving DecidableEq, Repr

/-- Modelled from the spec: `isWithinHeight` of `@src/helpers/grid` (module
absent from the corpus; only its unit tests are present). The returned
predicate holds when the slot of the event fits inside the container: `(top + 1) ×
rowHeight ≤ containerHeight`. -/
def isWithinHeight (containerHeight rowHeight : ℚ) (uiModel : EventUIModelT) : Bool :=
  ((uiModel.top : ℚ) + 1) * rowHeight ≤ containerHeight

/-! ## Shared helper lemmas -/

lemma gridWidthList_length (row : List ℕ) (nw : Bool) (tw : ℚ) :
    (gridWidthList row nw tw).length = row.length := by
  unfold gridWidthList
  split <;> simp

lemma leftsOf_length (l : List ℚ) : (leftsOf l).length = l.length := by
  induction l with
  | nil => rfl
  | cons w ws ih => simp [leftsOf, ih]

lemma qle_zero_250 : (0 : ℚ) ≤ 250 := by norm_num

lemma qle_250_700 : (250 : ℚ) ≤ 0 + 700 := by norm_num

lemma qle_zero_130 : (0 : ℚ) ≤ 130 := by norm_num

lemma qle_130_960 : (130 : ℚ) ≤ 0 + 960 := by norm_num

/-! ## Claim theorems -/

/-- C6: the grid position finder returns null, and only null, in exactly two
situations: every input when the container is null, and every point strictly
outside the container box; being a total function, it never signals an error. -/
theorem gridPositionFinder_null_iff (columnsCount rowsCount : ℕ) (px py : ℚ) :
    createGridPositionFinder columnsCount rowsCount none px py = none ∧
    ∀ r : Rect,
      (createGridPositionFinder columnsCount rowsCount (some r) px py = none ↔
        px < r.x ∨ r.x + r.width < px ∨ py < r.y ∨ r.y + r.height < py) := by
  refine ⟨rfl, fun r => ?_⟩
  have hunf : createGridPositionFinder columnsCount rowsCount (some r) px py =
      if px - r.x < 0 ∨ py - r.y < 0 ∨ px - r.x > r.width ∨ py - r.y > r.height then none
      else
        some
          { columnIndex := clampI 0 ((columnsCount : ℤ) - 1)
              ⌊(px - r.x) / (r.width / (columnsCount : ℚ))⌋
            rowIndex := clampI 0 ((rowsCount : ℤ) - 1)
              ⌊(py - r.y) / (r.height / (rowsCount : ℚ))⌋ } := rfl
  have hcond : (px - r.x < 0 ∨ py - r.y < 0 ∨ px - r.x > r.width ∨ py - r.y > r.height) ↔
      (px < r.x ∨ r.x + r.width < px ∨ py < r.y ∨ r.y + r.height < py) := by
    constructor
    · rintro (h | h | h | h)
      · exact Or.inl (by linarith)
      · exact Or.inr (Or.inr (Or.inl (by linarith)))
      · exact Or.inr (Or.inl (by linarith))
      · exact Or.inr (Or.inr (Or.inr (by linarith)))
    · rintro (h | h | h | h)
      · exact Or.inl (by linarith)
      · exact Or.inr (Or.inr (Or.inl (by linarith)))
      · exact Or.inr (Or.inl (by linarith))
      · exact Or.inr (Or.inr (Or.inr (by linarith)))
  by_cases h : px - r.x < 0 ∨ py - r.y < 0 ∨ px - r.x > r.width ∨ py - r.y > r.height
  · rw [hunf, if_pos h]
    exact iff_of_true rfl (hcond.mp h)
  · rw [hunf, if_neg h]
    exact iff_of_false (by simp) (fun hc => h (hcond.mpr hc))

/-- C1: for every non-null container and pointer point inside the container
box, the grid position finder returns the clamped floor indices given by the
spec formula; in particular, for the 700 × 960 container with 7 columns and 48
rows, the point (250, 130) maps to cell (2, 6) and the exact bottom-right
corner (700, 960) maps to the last cell (6, 47). -/
theorem gridPositionFinder_inside (columnsCount rowsCount : ℕ) (r : Rect) (px py : ℚ)
    (hx1 : r.x ≤ px) (hx2 : px ≤ r.x + r.width)
    (hy1 : r.y ≤ py) (hy2 : py ≤ r.y + r.height) :
    createGridPositionFinder columnsCount rowsCount (some r) px py =
      some
        { columnIndex :=
            clampI 0 ((columnsCount : ℤ) - 1) ⌊(px - r.x) / (r.width / (columnsCount : ℚ))⌋
          rowIndex :=
            clampI 0 ((rowsCount : ℤ) - 1) ⌊(py - r.y) / (r.height / (rowsCount : ℚ))⌋ } ∧
    createGridPositionFinder 7 48 (some ⟨0, 0, 700, 960⟩) 250 130 =
      some { columnIndex := 2, rowIndex := 6 } ∧
    createGridPositionFinder 7 48 (some ⟨0, 0, 700, 960⟩) 700 960 =
      some { columnIndex := 6, rowIndex := 47 } := by
  have hgen : ∀ (cc rc : ℕ) (b : Rect) (qx qy : ℚ), b.x ≤ qx → qx ≤ b.x + b.width →
      b.y ≤ qy → qy ≤ b.y + b.height →
      createGridPositionFinder cc rc (some b) qx qy =
        some
          { columnIndex := clampI 0 ((cc : ℤ) - 1) ⌊(qx - b.x) / (b.width / (cc : ℚ))⌋
            rowIndex := clampI 0 ((rc : ℤ) - 1) ⌊(qy - b.y) / (b.height / (rc : ℚ))⌋ } := by
    intro cc rc b qx qy h1 h2 h3 h4
    have h : ¬(qx - b.x < 0 ∨ qy - b.y < 0 ∨ qx - b.x > b.width ∨ qy - b.y > b.height) := by
      push_neg
      refine ⟨by linarith, by linarith, by linarith, by linarith⟩
    have hunf : createGridPositionFinder cc rc (some b) qx qy =
        if qx - b.x < 0 ∨ qy - b.y < 0 ∨ qx - b.x > b.width ∨ qy - b.y > b.height then none
        else
          some
            { columnIndex := clampI 0 ((cc : ℤ) - 1) ⌊(qx - b.x) / (b.width / (cc : ℚ))⌋
              rowIndex := clampI 0 ((rc : ℤ) - 1) ⌊(qy - b.y) / (b.height / (rc : ℚ))⌋ } := rfl
    rw [hunf, if_neg h]
  refine ⟨hgen columnsCount rowsCount r px py hx1 hx2 hy1 hy2, ?_, ?_⟩
  · rw [hgen 7 48 ⟨0, 0, 700, 960⟩ 250 130 (by norm_num) (by norm_num) (by norm_num) (by norm_num)]
    norm_num [clampI]
  · rw [hgen 7 48 ⟨0, 0, 700, 960⟩ 700 960 (by norm_num) (by norm_num) (by norm_num) (by norm_num)]
    norm_num [clampI]

/-- C1 witness: the general formula instantiated at the 700 × 960 container
scenario, all bounds holding at the point (250, 130). -/
theorem gridPositionFinder_inside_witness :
    ((0 : ℚ) ≤ 250 ∧ (250 : ℚ) ≤ 0 + 700 ∧ (0 : ℚ) ≤ 130 ∧ (130 : ℚ) ≤ 0 + 960) ∧
    (createGridPositionFinder 7 48 (some ⟨0, 0, 700, 960⟩) 250 130 =
        some
          { columnIndex := clampI 0 ((7 : ℤ) - 1) ⌊((250 : ℚ) - 0) / (700 / (7 : ℚ))⌋
            rowIndex := clampI 0 ((48 : ℤ) - 1) ⌊((130 : ℚ) - 0) / (960 / (48 : ℚ))⌋ } ∧
      createGridPositionFinder 7 48 (some ⟨0, 0, 700, 960⟩) 250 130 =
        some { columnIndex := 2, rowIndex := 6 } ∧
      createGridPositionFinder 7 48 (some ⟨0, 0, 700, 960⟩) 700 960 =
        some { columnIndex := 6, rowIndex := 47 }) :=
  ⟨⟨qle_zero_250, qle_250_700, qle_zero_130, qle_130_960⟩,
    gridPositionFinder_inside 7 48 ⟨0, 0, 700, 960⟩ 250 130
      qle_zero_250 qle_250_700 qle_zero_130 qle_130_960⟩

/-- C9: the predicate returned by `isWithinHeight` holds for an event UI model
at vertical slot index `top` exactly when `(top + 1) × rowHeight` does not
exceed the container height. -/
theorem isWithinHeight_iff (containerHeight rowHeight : ℚ) (m : EventUIModelT) :
    isWithinHeight containerHeight rowHeight m = true ↔
      ((m.top : ℚ) + 1) * rowHeight ≤ containerHeight := by
  simp [isWithinHeight]

/-- C5: with `visibleWeeksCount = 4` the date matrix builder returns exactly 4
rows for every target date, whatever the value of `isAlways6Week`. -/
theorem dateMatrix_visibleWeeksCount4 (y m d : ℤ) (opts : MonthOptions)
    (h : opts.visibleWeeksCount = 4) :
    (createDateMatrixOfMonth y m d opts).length = 4 := by
  simp only [createDateMatrixOfMonth, h, List.length_map, List.length_range]
  rfl

/-- C5 witness: December 2021 with `visibleWeeksCount = 4` yields 4 rows both
with `isAlways6Week` enabled and with it disabled. -/
theorem dateMatrix_visibleWeeksCount4_witness :
    (MonthOptions.visibleWeeksCount ⟨0, false, 4, true⟩ = 4 ∧
      (createDateMatrixOfMonth 2021 12 1 ⟨0, false, 4, true⟩).length = 4) ∧
    (MonthOptions.visibleWeeksCount ⟨0, false, 4, false⟩ = 4 ∧
      (createDateMatrixOfMonth 2021 12 1 ⟨0, false, 4, false⟩).length = 4) :=
  ⟨⟨rfl, dateMatrix_visibleWeeksCount4 2021 12 1 ⟨0, false, 4, true⟩ rfl⟩,
   ⟨rfl, dateMatrix_visibleWeeksCount4 2021 12 1 ⟨0, false, 4, false⟩ rfl⟩⟩

/-- C10: when no stored event matches both the event id and the calendar id,
`getEvent` returns null and `updateEvent` / `deleteEvent` dispatch nothing,
leaving the event collection unchanged; hence they mutate only when a
matching event exists. -/
theorem crudMissingEvent_noop (events : List EventModelT) (eventId calendarId newTitle : String)
    (h : ∀ e ∈ events, ¬(e.id = eventId ∧ e.calendarId = calendarId)) :
    getEvent events eventId calendarId = none ∧
    updateEvent events eventId calendarId newTitle = events ∧
    deleteEvent events eventId calendarId = events := by
  have hfind : getEventModel events eventId calendarId = none := by
    unfold getEventModel
    rw [List.find?_eq_none]
    intro e he
    simpa using h e he
  refine ⟨?_, ?_, ?_⟩
  · unfold getEvent
    exact hfind
  · unfold updateEvent
    rw [hfind]
  · unfold deleteEvent
    rw [hfind]

/-- C10 witness: looking up, updating or deleting with an id pair matching no
stored event leaves the one-element collection untouched and returns null. -/
theorem crudMissingEvent_noop_witness :
    (∀ e ∈ [({ id := "1", calendarId := "cal1", title := "ev" } : EventModelT)],
      ¬(e.id = "2" ∧ e.calendarId = "cal1")) ∧
    (getEvent [{ id := "1", calendarId := "cal1", title := "ev" }] "2" "cal1" = none ∧
      updateEvent [{ id := "1", calendarId := "cal1", title := "ev" }] "2" "cal1" "new" =
        [{ id := "1", calendarId := "cal1", title := "ev" }] ∧
      deleteEvent [{ id := "1", calendarId := "cal1", title := "ev" }] "2" "cal1" =
        [{ id := "1", calendarId := "cal1", title := "ev" }]) := by
  have h : ∀ e ∈ [({ id := "1", calendarId := "cal1", title := "ev" } : EventModelT)],
      ¬(e.id = "2" ∧ e.calendarId = "cal1") := by decide
  exact ⟨h, crudMissingEvent_noop _ "2" "cal1" "new" h⟩

lemma createTimeGridRows_length (hourStart hourEnd : ℕ) :
    (createTimeGridRows hourStart hourEnd).length = 2 * (hourEnd - hourStart) := by
  simp [createTimeGridRows]

lemma createTimeGridRows_get (hourStart hourEnd i : ℕ)
    (hi : i < (createTimeGridRows hourStart hourEnd).length) :
    (createTimeGridRows hourStart hourEnd).get ⟨i, hi⟩ =
      { top := 100 / ((2 * (hourEnd - hourStart) : ℕ) : ℚ) * (i : ℚ)
        height := 100 / ((2 * (hourEnd - hourStart) : ℕ) : ℚ)
        startTime :=
          padStart5 (toString (hourStart + i / 2) ++ ":" ++ (if i % 2 = 1 then "30" else "00"))
        endTime :=
          padStart5 (if i % 2 = 1 then toString (hourStart + i / 2 + 1) ++ ":00"
            else toString (hourStart + i / 2) ++ ":30") } := by
  simp [createTimeGridRows, List.get_eq_getElem]

/-- C2: for all hours `hourStart < hourEnd ≤ 24` the time grid row builder
produces exactly `2 × (hourEnd − hourStart)` rows with `height = 100 /
stepCount`, `top = height × index` (so consecutive rows are contiguous and the
heights sum to 100), and zero-padded `H:MM` labels alternating `:00 → :30` and
`:30 →` next hour `:00`. -/
theorem createTimeGridRows_spec (hourStart hourEnd : ℕ)
    (h1 : hourStart < hourEnd) (h2 : hourEnd ≤ 24) :
    (createTimeGridRows hourStart hourEnd).length = 2 * (hourEnd - hourStart) ∧
    (∀ i (hi : i < (createTimeGridRows hourStart hourEnd).length),
      ((createTimeGridRows hourStart hourEnd).get ⟨i, hi⟩).height
          = 100 / ((2 * (hourEnd - hourStart) : ℕ) : ℚ) ∧
      ((createTimeGridRows hourStart hourEnd).get ⟨i, hi⟩).top
          = 100 / ((2 * (hourEnd - hourStart) : ℕ) : ℚ) * (i : ℚ) ∧
      ((createTimeGridRows hourStart hourEnd).get ⟨i, hi⟩).startTime
          = padStart5 (toString (hourStart + i / 2) ++ ":" ++ (if i % 2 = 1 then "30" else "00")) ∧
      ((createTimeGridRows hourStart hourEnd).get ⟨i, hi⟩).endTime
          = padStart5 (if i % 2 = 1 then toString (hourStart + i / 2 + 1) ++ ":00"
              else toString (hourStart + i / 2) ++ ":30")) ∧
    (∀ i (hi : i + 1 < (createTimeGridRows hourStart hourEnd).length),
      ((createTimeGridRows hourStart hourEnd).get ⟨i, Nat.lt_of_succ_lt hi⟩).top
          + ((createTimeGridRows hourStart hourEnd).get ⟨i, Nat.lt_of_succ_lt hi⟩).height
        = ((createTimeGridRows hourStart hourEnd).get ⟨i + 1, hi⟩).top) ∧
    ((createTimeGridRows hourStart hourEnd).map TimeGridRow.height).sum = 100 := by
  have hsteps : 2 * (hourEnd - hourStart) ≠ 0 := by omega
  have hcast : ((2 * (hourEnd - hourStart) : ℕ) : ℚ) ≠ 0 := Nat.cast_ne_zero.mpr hsteps
  refine ⟨createTimeGridRows_length _ _, ?_, ?_, ?_⟩
  · intro i hi
    rw [createTimeGridRows_get]
    exact ⟨rfl, rfl, rfl, rfl⟩
  · intro i hi
    rw [createTimeGridRows_get, createTimeGridRows_get]
    push_cast
    ring
  · have hmap : (createTimeGridRows hourStart hourEnd).map TimeGridRow.height
        = List.replicate (2 * (hourEnd - hourStart)) (100 / ((2 * (hourEnd - hourStart) : ℕ) : ℚ)) := by
      unfold createTimeGridRows
      rw [List.map_map]
      show (List.range (2 * (hourEnd - hourStart))).map
          (fun _ => 100 / ((2 * (hourEnd - hourStart) : ℕ) : ℚ)) = _
      rw [List.map_const', List.length_range]
    rw [hmap, List.sum_replicate, nsmul_eq_mul]
    rw [← mul_div_assoc, mul_comm, mul_div_assoc, div_self hcast, mul_one]

/-- C2 witness: the full-day grid (hourStart 0, hourEnd 24) instantiates the
row builder specification; it has 48 rows whose heights sum to 100, and row 13
covers 06:30 to 07:00. -/
theorem createTimeGridRows_spec_witness :
    0 < 24 ∧ 24 ≤ 24 ∧
    (createTimeGridRows 0 24).length = 2 * (24 - 0) ∧
    ((createTimeGridRows 0 24).map TimeGridRow.height).sum = 100 ∧
    ((createTimeGridRows 0 24).get ⟨13, by decide⟩).startTime = "06:30" ∧
    ((createTimeGridRows 0 24).get ⟨13, by decide⟩).endTime = "07:00" :=
  ⟨by decide, by decide, (createTimeGridRows_spec 0 24 (by decide) (by decide)).1,
    (createTimeGridRows_spec 0 24 (by decide) (by decide)).2.2.2, by decide, by decide⟩

lemma filter_length_split (l : List ℕ) (p : ℕ → Bool) :
    (l.filter p).length + (l.filter (fun d => !p d)).length = l.length := by
  induction l with
  | nil => rfl
  | cons d ds ih =>
    by_cases hd : p d <;> simp [List.filter_cons, hd, ← ih] <;> omega

lemma widthIte_sum (l : List ℕ) (u : ℚ) :
    (l.map (fun d => if isWeekendDay d then u / 2 else u)).sum
      = ((l.filter (fun d => !isWeekendDay d)).length : ℚ) * u
        + ((l.filter (fun d => isWeekendDay d)).length : ℚ) * (u / 2) := by
  induction l with
  | nil => simp
  | cons d ds ih =>
    by_cases hd : isWeekendDay d <;>
      simp [List.filter_cons, hd, ih] <;> push_cast <;> ring

lemma leftsOf_get (l : List ℚ) (i : ℕ) (hi : i < (leftsOf l).length) :
    (leftsOf l).get ⟨i, hi⟩ = (l.take i).sum := by
  induction l generalizing i with
  | nil => simp [leftsOf] at hi
  | cons w ws ih =>
    cases i with
    | zero => simp [leftsOf]
    | succ k =>
      have hk : k < (leftsOf ws).length := by
        have := hi
        simp only [leftsOf, List.length_cons, List.length_map] at this
        simpa using Nat.lt_of_succ_lt_succ this
      have hgoal : (leftsOf (w :: ws)).get ⟨k + 1, hi⟩
          = (leftsOf ws).get ⟨k, hk⟩ + w := by
        simp [leftsOf, List.get_eq_getElem]
      rw [hgoal, ih k hk]
      simp [List.take_succ_cons]
      ring

lemma gridWidthList_true_get (row : List ℕ) (tw : ℚ) (j : ℕ) (hj : j < row.length) :
    (gridWidthList row true tw).get ⟨j, by rw [gridWidthList_length]; exact hj⟩
      = (if isWeekendDay (row.get ⟨j, hj⟩)
          then tw / (((row.filter (fun d => !isWeekendDay d)).length : ℚ)
            + ((row.filter (fun d => isWeekendDay d)).length : ℚ) / 2) / 2
          else tw / (((row.filter (fun d => !isWeekendDay d)).length : ℚ)
            + ((row.filter (fun d => isWeekendDay d)).length : ℚ) / 2)) := by
  simp [gridWidthList, List.get_eq_getElem]

/-- C3: for every non-empty row and both values of the narrow-weekend flag,
the column widths sum to 100 (within tolerance 1e-6 — in exact rational
arithmetic the sum is exactly 100), each left value is the sum of all prior
widths, and with the flag set every weekend column is exactly half as wide as
every weekday column, the weekday width being
`total / (weekdayCount + weekendCount / 2)`. -/
theorem gridWidthAndLeft_spec (row : List ℕ) (narrowWeekend : Bool) (hrow : row ≠ []) :
    |(gridWidthList row narrowWeekend 100).sum - 100| ≤ 1 / 1000000 ∧
    (leftsOf (gridWidthList row narrowWeekend 100)).length
        = (gridWidthList row narrowWeekend 100).length ∧
    (∀ i (hi : i < (leftsOf (gridWidthList row narrowWeekend 100)).length),
      (leftsOf (gridWidthList row narrowWeekend 100)).get ⟨i, hi⟩
        = ((gridWidthList row narrowWeekend 100).take i).sum) ∧
    (narrowWeekend = true →
      ∀ i (hi : i < row.length) j (hj : j < row.length),
        isWeekendDay (row.get ⟨i, hi⟩) = true → isWeekendDay (row.get ⟨j, hj⟩) = false →
          (gridWidthList row narrowWeekend 100).get
              ⟨i, by rw [gridWidthList_length]; exact hi⟩
            = (gridWidthList row narrowWeekend 100).get
                ⟨j, by rw [gridWidthList_length]; exact hj⟩ / 2) ∧
    (narrowWeekend = true →
      ∀ j (hj : j < row.length), isWeekendDay (row.get ⟨j, hj⟩) = false →
        (gridWidthList row narrowWeekend 100).get ⟨j, by rw [gridWidthList_length]; exact hj⟩
          = 100 / (((row.filter (fun d => !isWeekendDay d)).length : ℚ)
              + ((row.filter (fun d => isWeekendDay d)).length : ℚ) / 2)) := by
  have hlen : 0 < row.length := List.length_pos.mpr hrow
  have hsum : (gridWidthList row narrowWeekend 100).sum = 100 := by
    cases narrowWeekend with
    | false =>
      have hmap : gridWidthList row false 100
          = List.replicate row.length (100 / (row.length : ℚ)) := by
        unfold gridWidthList
        simp [List.map_const']
      have hcast : ((row.length : ℕ) : ℚ) ≠ 0 :=
        Nat.cast_ne_zero.mpr (Nat.pos_iff_ne_zero.mp hlen)
      rw [hmap, List.sum_replicate, nsmul_eq_mul]
      rw [← mul_div_assoc, mul_comm, mul_div_assoc, div_self hcast, mul_one]
    | true =>
      have hunf : gridWidthList row true 100
          = row.map (fun d => if isWeekendDay d
              then 100 / (((row.filter (fun d => !isWeekendDay d)).length : ℚ)
                + ((row.filter (fun d => isWeekendDay d)).length : ℚ) / 2) / 2
              else 100 / (((row.filter (fun d => !isWeekendDay d)).length : ℚ)
                + ((row.filter (fun d => isWeekendDay d)).length : ℚ) / 2)) := rfl
      set W : ℕ := (row.filter (fun d => !isWeekendDay d)).length with hW
      set E : ℕ := (row.filter (fun d => isWeekendDay d)).length with hE
      have hWE : E + W = row.length := filter_length_split row (fun d => isWeekendDay d)
      have hpos : (0 : ℚ) < (W : ℚ) + (E : ℚ) / 2 := by
        rcases Nat.eq_zero_or_pos W with hw | hw
        · have he : 0 < E := by omega
          have : (1 : ℚ) ≤ (E : ℚ) := by exact_mod_cast he
          rw [hw]
          push_cast
          linarith
        · have : (1 : ℚ) ≤ (W : ℚ) := by exact_mod_cast hw
          have he : (0 : ℚ) ≤ (E : ℚ) := by positivity
          linarith
      have hne : (W : ℚ) + (E : ℚ) / 2 ≠ 0 := ne_of_gt hpos
      rw [hunf, widthIte_sum]
      rw [← hW, ← hE]
      calc (W : ℚ) * (100 / ((W : ℚ) + (E : ℚ) / 2))
            + (E : ℚ) * (100 / ((W : ℚ) + (E : ℚ) / 2) / 2)
          = ((W : ℚ) + (E : ℚ) / 2) * (100 / ((W : ℚ) + (E : ℚ) / 2)) := by ring
        _ = 100 := by
            rw [← mul_div_assoc, mul_comm, mul_div_assoc, div_self hne, mul_one]
  refine ⟨by rw [hsum]; norm_num, leftsOf_length _, ?_, ?_, ?_⟩
  · intro i hi
    exact leftsOf_get _ i hi
  · intro hnw i hi j hj hwi hwj
    subst hnw
    rw [gridWidthList_true_get row 100 i hi, gridWidthList_true_get row 100 j hj, hwi, hwj]
    simp
  · intro hnw j hj hwj
    subst hnw
    rw [gridWidthList_true_get row 100 j hj, hwj]
    simp

/-- C3 witness: the Thursday–Friday–Saturday row (day numbers 4, 5, 6) of the
unit tests, with narrow weekend enabled, instantiates the layout invariants. -/
theorem gridWidthAndLeft_spec_witness :
    ([4, 5, 6] : List ℕ) ≠ [] ∧
    |(gridWidthList [4, 5, 6] true 100).sum - 100| ≤ 1 / 1000000 ∧
    (∀ i (hi : i < (leftsOf (gridWidthList [4, 5, 6] true 100)).length),
      (leftsOf (gridWidthList [4, 5, 6] true 100)).get ⟨i, hi⟩
        = ((gridWidthList [4, 5, 6] true 100).take i).sum) :=
  ⟨by decide, (gridWidthAndLeft_spec [4, 5, 6] true (by decide)).1,
    (gridWidthAndLeft_spec [4, 5, 6] true (by decide)).2.2.1⟩

/-- C4: the date matrix of any December 2021 date with default options starts
at 2021-11-28 (a Sunday, day-of-week 0) and has exactly 6 rows of 7
consecutive days; with `workweek` enabled each of the 6 rows instead has the 5
days offset 1 through 5 from the Sunday opening its week — Monday through
Friday only. -/
theorem dateMatrix_december2021 (d : ℤ) (h1 : 1 ≤ d) (h2 : d ≤ 31) :
    createDateMatrixOfMonth 2021 12 d defaultMonthOptions
        = (List.range 6).map (fun w => (List.range 7).map (fun j =>
            daysFromCivil 2021 11 28 + 7 * (w : ℤ) + (j : ℤ))) ∧
    dayOfWeek (daysFromCivil 2021 11 28) = 0 ∧
    createDateMatrixOfMonth 2021 12 d { defaultMonthOptions with workweek := true }
        = (List.range 6).map (fun w => (List.range 5).map (fun j =>
            daysFromCivil 2021 11 28 + 7 * (w : ℤ) + (1 + (j : ℤ)))) := by
  have e1 : createDateMatrixOfMonth 2021 12 d defaultMonthOptions
      = createDateMatrixOfMonth 2021 12 1 defaultMonthOptions := rfl
  have e2 : createDateMatrixOfMonth 2021 12 d { defaultMonthOptions with workweek := true }
      = createDateMatrixOfMonth 2021 12 1 { defaultMonthOptions with workweek := true } := rfl
  rw [e1, e2]
  exact ⟨by decide, by decide, by decide⟩

/-- C4 witness: the theorem instantiated at the mid-month target date
2021-12-15. -/
theorem dateMatrix_december2021_witness :
    ((1 : ℤ) ≤ 15 ∧ (15 : ℤ) ≤ 31) ∧
    (createDateMatrixOfMonth 2021 12 15 defaultMonthOptions
        = (List.range 6).map (fun w => (List.range 7).map (fun j =>
            daysFromCivil 2021 11 28 + 7 * (w : ℤ) + (j : ℤ))) ∧
      dayOfWeek (daysFromCivil 2021 11 28) = 0 ∧
      createDateMatrixOfMonth 2021 12 15 { defaultMonthOptions with workweek := true }
          = (List.range 6).map (fun w => (List.range 5).map (fun j =>
              daysFromCivil 2021 11 28 + 7 * (w : ℤ) + (1 + (j : ℤ))))) :=
  ⟨⟨by decide, by decide⟩, dateMatrix_december2021 15 (by decide) (by decide)⟩

lemma dragStep_down_idle (δ : ℚ) (commitFn : List EventModelT → Rect → Rect → List EventModelT)
    (s : InteractionState) (p : Point) (h : s.session = none) :
    dragStep δ commitFn s (.down p)
      = { s with session := some ⟨s.elementBox, p, false⟩ } := by
  unfold dragStep
  rw [h]

lemma dragStep_move_active (δ : ℚ) (commitFn : List EventModelT → Rect → Rect → List EventModelT)
    (s : InteractionState) (p : Point) (sess : DragSession) (h : s.session = some sess) :
    dragStep δ commitFn s (.move p)
      = { elementBox :=
            { x := sess.originBox.x + (p.x - sess.originPoint.x)
              y := sess.originBox.y + (p.y - sess.originPoint.y)
              width := sess.originBox.width
              height := sess.originBox.height }
          events := s.events
          session := some ⟨sess.originBox, sess.originPoint,
            sess.exceeded || decide (moveDistance p sess.originPoint > δ)⟩ } := by
  unfold dragStep
  rw [h]

lemma dragStep_up_active (δ : ℚ) (commitFn : List EventModelT → Rect → Rect → List EventModelT)
    (s : InteractionState) (sess : DragSession) (h : s.session = some sess) :
    dragStep δ commitFn s .up
      = { elementBox := s.elementBox
          events := commitFn s.events sess.originBox s.elementBox
          session := none } := by
  unfold dragStep
  rw [h]

lemma dragStep_cancel_active (δ : ℚ) (commitFn : List EventModelT → Rect → Rect → List EventModelT)
    (s : InteractionState) (sess : DragSession) (h : s.session = some sess) :
    dragStep δ commitFn s .cancelKey
      = { elementBox := sess.originBox, events := s.events, session := none } := by
  unfold dragStep
  rw [h]

lemma dragRun_moveList (δ : ℚ) (commitFn : List EventModelT → Rect → Rect → List EventModelT)
    (ms : List Point) (s : InteractionState) (ob : Rect) (op : Point) (b : Bool)
    (h : s.session = some ⟨ob, op, b⟩) :
    (dragRun δ commitFn s (ms.map PointerInput.move)).events = s.events ∧
    (dragRun δ commitFn s (ms.map PointerInput.move)).session
      = some ⟨ob, op, b || ms.any (fun q => moveDistance q op > δ)⟩ := by
  induction ms generalizing s b with
  | nil =>
    refine ⟨rfl, ?_⟩
    rw [show (dragRun δ commitFn s ([].map PointerInput.move)) = s from rfl, h]
    simp
  | cons q ms ih =>
    have hstep := dragStep_move_active δ commitFn s q ⟨ob, op, b⟩ h
    have hs : (dragStep δ commitFn s (.move q)).session
        = some ⟨ob, op, b || decide (moveDistance q op > δ)⟩ := by
      rw [hstep]
    have hev : (dragStep δ commitFn s (.move q)).events = s.events := by
      rw [hstep]
    obtain ⟨ih1, ih2⟩ := ih (dragStep δ commitFn s (.move q)) (b || decide (moveDistance q op > δ)) hs
    have hrun : dragRun δ commitFn s ((q :: ms).map PointerInput.move)
        = dragRun δ commitFn (dragStep δ commitFn s (.move q)) (ms.map PointerInput.move) := rfl
    rw [hrun]
    refine ⟨by rw [ih1, hev], ?_⟩
    rw [ih2]
    simp [Bool.or_assoc]

/-- C7: starting a drag at any point, moving through any sequence of pointer
positions, then taking the cancel-key transition restores the bounding box of
the dragged element to its exact pre-drag value and leaves the event
collection completely unmodified. -/
theorem dragCancel_resets (δ : ℚ) (commitFn : List EventModelT → Rect → Rect → List EventModelT)
    (s₀ : InteractionState) (p : Point) (ms : List Point) (h : s₀.session = none) :
    (dragRun δ commitFn s₀
        ((PointerInput.down p :: ms.map PointerInput.move) ++ [PointerInput.cancelKey])).elementBox
      = s₀.elementBox ∧
    (dragRun δ commitFn s₀
        ((PointerInput.down p :: ms.map PointerInput.move) ++ [PointerInput.cancelKey])).events
      = s₀.events := by
  have hdown := dragStep_down_idle δ commitFn s₀ p h
  have hsplit : dragRun δ commitFn s₀
      ((PointerInput.down p :: ms.map PointerInput.move) ++ [PointerInput.cancelKey])
        = dragStep δ commitFn
            (dragRun δ commitFn (dragStep δ commitFn s₀ (.down p)) (ms.map PointerInput.move))
            .cancelKey := by
    show (((PointerInput.down p :: ms.map PointerInput.move) ++ [PointerInput.cancelKey]).foldl
        (dragStep δ commitFn) s₀) = _
    rw [List.cons_append, List.foldl_cons, List.foldl_append]
    rfl
  obtain ⟨hev, hsess⟩ := dragRun_moveList δ commitFn ms (dragStep δ commitFn s₀ (.down p))
    s₀.elementBox p false (by rw [hdown])
  rw [hsplit, dragStep_cancel_active δ commitFn _ _ hsess]
  refine ⟨rfl, ?_⟩
  rw [hev, hdown]

/-- C7 witness: a concrete drag of a 10 × 10 element from pointer-down at
(5, 5) through a move to (5, 9), cancelled by the cancel key, restores the box
and the one-event collection. -/
theorem dragCancel_resets_witness :
    (InteractionState.session
        ⟨⟨0, 0, 10, 10⟩, [{ id := "1", calendarId := "c", title := "ev" }], none⟩ = none) ∧
    ((dragRun 3 (fun evs _ _ => evs)
        ⟨⟨0, 0, 10, 10⟩, [{ id := "1", calendarId := "c", title := "ev" }], none⟩
        ((PointerInput.down ⟨5, 5⟩ :: [(⟨5, 9⟩ : Point)].map PointerInput.move)
          ++ [PointerInput.cancelKey])).elementBox
      = InteractionState.elementBox
          ⟨⟨0, 0, 10, 10⟩, [{ id := "1", calendarId := "c", title := "ev" }], none⟩ ∧
      (dragRun 3 (fun evs _ _ => evs)
        ⟨⟨0, 0, 10, 10⟩, [{ id := "1", calendarId := "c", title := "ev" }], none⟩
        ((PointerInput.down ⟨5, 5⟩ :: [(⟨5, 9⟩ : Point)].map PointerInput.move)
          ++ [PointerInput.cancelKey])).events
      = InteractionState.events
          ⟨⟨0, 0, 10, 10⟩, [{ id := "1", calendarId := "c", title := "ev" }], none⟩) :=
  ⟨rfl, dragCancel_resets 3 (fun evs _ _ => evs)
    ⟨⟨0, 0, 10, 10⟩, [{ id := "1", calendarId := "c", title := "ev" }], none⟩
    ⟨5, 5⟩ [⟨5, 9⟩] rfl⟩

/-- C8: over any run consisting of a pointer-down followed by pointer moves,
the CSS drag state marker is present exactly when some move has exceeded the
pixel movement threshold since pointer-down; it is absent right after
pointer-down (so a down-then-immediate-up never shows it) and absent again
after pointer-up or cancel. -/
theorem dragMarker_spec (δ : ℚ) (commitFn : List EventModelT → Rect → Rect → List EventModelT)
    (s₀ : InteractionState) (p : Point) (ms : List Point) (h : s₀.session = none) :
    cssMarkerPresent (dragRun δ commitFn s₀ (PointerInput.down p :: ms.map PointerInput.move))
      = ms.any (fun q => moveDistance q p > δ) ∧
    cssMarkerPresent (dragRun δ commitFn s₀
        ((PointerInput.down p :: ms.map PointerInput.move) ++ [PointerInput.up])) = false ∧
    cssMarkerPresent (dragRun δ commitFn s₀
        ((PointerInput.down p :: ms.map PointerInput.move) ++ [PointerInput.cancelKey])) = false ∧
    cssMarkerPresent (dragRun δ commitFn s₀ [PointerInput.down p]) = false := by
  have hdown := dragStep_down_idle δ commitFn s₀ p h
  obtain ⟨hev, hsess⟩ := dragRun_moveList δ commitFn ms (dragStep δ commitFn s₀ (.down p))
    s₀.elementBox p false (by rw [hdown])
  have hrun : dragRun δ commitFn s₀ (PointerInput.down p :: ms.map PointerInput.move)
      = dragRun δ commitFn (dragStep δ commitFn s₀ (.down p)) (ms.map PointerInput.move) := rfl
  have hsplitU : dragRun δ commitFn s₀
      ((PointerInput.down p :: ms.map PointerInput.move) ++ [PointerInput.up])
        = dragStep δ commitFn
            (dragRun δ commitFn (dragStep δ commitFn s₀ (.down p)) (ms.map PointerInput.move))
            .up := by
    show (((PointerInput.down p :: ms.map PointerInput.move) ++ [PointerInput.up]).foldl
        (dragStep δ commitFn) s₀) = _
    rw [List.cons_append, List.foldl_cons, List.foldl_append]
    rfl
  have hsplitC : dragRun δ commitFn s₀
      ((PointerInput.down p :: ms.map PointerInput.move) ++ [PointerInput.cancelKey])
        = dragStep δ commitFn
            (dragRun δ commitFn (dragStep δ commitFn s₀ (.down p)) (ms.map PointerInput.move))
            .cancelKey := by
    show (((PointerInput.down p :: ms.map PointerInput.move) ++ [PointerInput.cancelKey]).foldl
        (dragStep δ commitFn) s₀) = _
    rw [List.cons_append, List.foldl_cons, List.foldl_append]
    rfl
  refine ⟨?_, ?_, ?_, ?_⟩
  · rw [hrun]
    unfold cssMarkerPresent
    rw [hsess]
    simp
  · rw [hsplitU, dragStep_up_active δ commitFn _ _ hsess]
    rfl
  · rw [hsplitC, dragStep_cancel_active δ commitFn _ _ hsess]
    rfl
  · rw [show dragRun δ commitFn s₀ [PointerInput.down p]
        = dragStep δ commitFn s₀ (.down p) from rfl, hdown]
    rfl

/-- C8 witness: with threshold 3, a pointer-down at (5, 5) alone shows no
marker, a move to (5, 9) makes the marker condition the exceeded-threshold
test of that move, and pointer-up or cancel removes the marker. -/
theorem dragMarker_spec_witness :
    (InteractionState.session ⟨⟨0, 0, 10, 10⟩, [], none⟩ = none) ∧
    (cssMarkerPresent (dragRun 3 (fun evs _ _ => evs) ⟨⟨0, 0, 10, 10⟩, [], none⟩
        (PointerInput.down ⟨5, 5⟩ :: [(⟨5, 9⟩ : Point)].map PointerInput.move))
      = [(⟨5, 9⟩ : Point)].any (fun q => moveDistance q ⟨5, 5⟩ > 3) ∧
      cssMarkerPresent (dragRun 3 (fun evs _ _ => evs) ⟨⟨0, 0, 10, 10⟩, [], none⟩
        ((PointerInput.down ⟨5, 5⟩ :: [(⟨5, 9⟩ : Point)].map PointerInput.move)
          ++ [PointerInput.up])) = false ∧
      cssMarkerPresent (dragRun 3 (fun evs _ _ => evs) ⟨⟨0, 0, 10, 10⟩, [], none⟩
        ((PointerInput.down ⟨5, 5⟩ :: [(⟨5, 9⟩ : Point)].map PointerInput.move)
          ++ [PointerInput.cancelKey])) = false ∧
      cssMarkerPresent (dragRun 3 (fun evs _ _ => evs) ⟨⟨0, 0, 10, 10⟩, [], none⟩
        [PointerInput.down ⟨5, 5⟩]) = false) :=
  ⟨rfl, dragMarker_spec 3 (fun evs _ _ => evs) ⟨⟨0, 0, 10, 10⟩, [], none⟩ ⟨5, 5⟩ [⟨5, 9⟩] rfl⟩
